import Mathlib

/-!
Shallow embedding of `src/txt_to_scad/txt_to_scad.py`.

The Python program reads a text file of 2D coordinates, filters and parses
its lines, and writes an OpenSCAD array-literal declaration.  File contents
are modelled as `String`s and lines as `List Char`; the file system is
modelled explicitly (see `FS` below).  Python floats are modelled as IEEE
754 binary64 values (`PyFloat`): `float(token)` validates digit-group
underscores, accepts signed `inf`/`infinity`/`nan` case-insensitively, and
otherwise correctly rounds the exact decimal value to the nearest double
(ties to even) with overflow to infinity and sign-preserving underflow to
zero, exactly as CPython's correctly-rounded `strtod` does; `f"{x:.6f}"`
prints `inf`/`-inf`/`nan` for non-finite values and otherwise rounds the
double's exact binary value half-to-even at the sixth decimal place.  All
arithmetic is exact integer arithmetic, so every function evaluates by
kernel reduction.  Python's `for line in f` iteration is modelled by
universal-newline translation followed by splitting at `'\n'`; the
trailing empty fragment this produces for a newline-terminated file is
empty, hence filtered exactly as Python's absent final iteration would be.
-/

namespace TxtToScad

/-- Python `str` whitespace: the characters stripped by `str.strip()` and
separating words for `str.split()` — ASCII whitespace, the C0 separator
controls, and the Unicode space characters. -/
def isPySpace (c : Char) : Bool :=
  c = ' ' || c = '\t' || c = '\n' || c = '\r' || c = '\x0b' || c = '\x0c' ||
  c = '\x1c' || c = '\x1d' || c = '\x1e' || c = '\x1f' || c = '\x85' ||
  c = '\xa0' || c = '\u1680' || ('\u2000' ≤ c && c ≤ '\u200a') ||
  c = '\u2028' || c = '\u2029' || c = '\u202f' || c = '\u205f' || c = '\u3000'

/-- Python `line.strip()`: drop leading and trailing whitespace. -/
def pyStrip (cs : List Char) : List Char :=
  ((cs.dropWhile isPySpace).reverse.dropWhile isPySpace).reverse

/-- Python `line.startswith('#')`. -/
def startsHash : List Char → Bool
  | '#' :: _ => true
  | _ => false

/-- Python `'...' in line`: the line contains the literal substring `...`
(elision marker). -/
def containsDots : List Char → Bool
  | '.' :: '.' :: '.' :: _ => true
  | _ :: rest => containsDots rest
  | [] => false

/-- Python `str.split()` with no argument, accumulator form: split on
whitespace runs, discarding empty fragments. -/
def pyWordsAux : List Char → List Char → List (List Char)
  | cur, [] => if cur.isEmpty then [] else [cur.reverse]
  | cur, c :: rest =>
    if isPySpace c then
      if cur.isEmpty then pyWordsAux [] rest
      else cur.reverse :: pyWordsAux [] rest
    else pyWordsAux (c :: cur) rest

/-- Python `str.split()` with no argument. -/
def pyWords (cs : List Char) : List (List Char) :=
  pyWordsAux [] cs

/-- `line.replace(',', ' ').split()` from the source. -/
def tokensOf (l : List Char) : List (List Char) :=
  pyWords (l.map (fun c => if c = ',' then ' ' else c))

/-- Splitting file contents at newline characters, accumulator form. -/
def splitLinesAux : List Char → List Char → List (List Char)
  | cur, [] => [cur.reverse]
  | cur, c :: rest =>
    if c = '\n' then cur.reverse :: splitLinesAux [] rest
    else splitLinesAux (c :: cur) rest

/-- Python text-mode universal newlines: `\r\n` and a lone `\r` are both
translated to `\n` on reading. -/
def normalizeNewlines : List Char → List Char
  | '\r' :: '\n' :: rest => '\n' :: normalizeNewlines rest
  | '\r' :: rest => '\n' :: normalizeNewlines rest
  | c :: rest => c :: normalizeNewlines rest
  | [] => []

/-- The lines of the source file, in order, as iterated by
`for line in f` (the terminators are irrelevant: each line is stripped
immediately, and a trailing empty fragment is filtered as blank). -/
def linesOf (src : String) : List (List Char) :=
  splitLinesAux [] (normalizeNewlines src.toList)

/-- Digit characters folded into a natural number (big-endian). -/
def digitsToNat (ds : List Char) : Nat :=
  ds.foldl (fun a c => a * 10 + (c.toNat - '0'.toNat)) 0

/-- A Python float: an IEEE 754 binary64 value.  A finite value is
`(-1)^sgn * m * 2^e` with the sign bit kept separately so that negative
zero (`float('-0')`, underflowed negatives) prints its minus sign as
Python does; the parser produces `m < 2^53`. -/
inductive PyFloat where
  | finite (sgn : Bool) (m : ℕ) (e : ℤ)
  | inf (sgn : Bool)
  | nan
  deriving DecidableEq, Repr

/-- Underscore validation of Python's `float(str)`: each `_` must sit
directly between two digits (PEP 515); `prev` is the preceding
character. -/
def underscoreOKAux : Option Char → List Char → Bool
  | _, [] => true
  | prev, '_' :: rest =>
    (match prev with
     | some p => p.isDigit
     | none => false) &&
    (match rest with
     | r :: _ => r.isDigit
     | [] => false) &&
    underscoreOKAux (some '_') rest
  | _, c :: rest => underscoreOKAux (some c) rest

/-- ASCII lower-casing, used for the case-insensitive `inf`/`infinity`/
`nan` literals. -/
def asciiLower (c : Char) : Char :=
  if 'A' ≤ c ∧ c ≤ 'Z' then Char.ofNat (c.toNat + 32) else c

/-- Optional exponent suffix of a float literal: empty, or
`[eE][+-]?digits`, giving the power of ten. -/
def parseExp : List Char → Option ℤ
  | [] => some 0
  | c :: rest =>
    if c = 'e' ∨ c = 'E' then
      match rest with
      | '+' :: ds =>
        if ds ≠ [] ∧ ds.all Char.isDigit then some (digitsToNat ds : ℤ) else none
      | '-' :: ds =>
        if ds ≠ [] ∧ ds.all Char.isDigit then some (-(digitsToNat ds : ℤ)) else none
      | ds =>
        if ds ≠ [] ∧ ds.all Char.isDigit then some (digitsToNat ds : ℤ) else none
    else none

/-- Unsigned decimal literal `digits [. digits] [exp]` or `. digits [exp]`
(at least one mantissa digit), as its exact value: significand digits and
a power-of-ten exponent, so the value is `n * 10^p10`. -/
def parseDecimal (cs : List Char) : Option (ℕ × ℤ) :=
  let ip := cs.takeWhile Char.isDigit
  let r1 := cs.dropWhile Char.isDigit
  match r1 with
  | '.' :: r2 =>
    let fp := r2.takeWhile Char.isDigit
    let r3 := r2.dropWhile Char.isDigit
    if ip = [] ∧ fp = [] then none
    else (parseExp r3).map (fun ex => (digitsToNat (ip ++ fp), ex - fp.length))
  | _ =>
    if ip = [] then none
    else (parseExp r1).map (fun ex => (digitsToNat ip, ex))

/-- Bit length of a natural number (`0` for `0`), by fuelled halving; the
fuel `n` itself always suffices. -/
def bitLenAux : ℕ → ℕ → ℕ
  | 0, _ => 0
  | fuel + 1, n => if n = 0 then 0 else bitLenAux fuel (n / 2) + 1

/-- Bit length: `2^(bitLen n - 1) ≤ n < 2^(bitLen n)` for `n ≥ 1`. -/
def bitLen (n : ℕ) : ℕ :=
  bitLenAux n n

/-- Exact comparison `n / d ≥ 2^c` for naturals `n, d ≥ 1`. -/
def gePow2 (n d : ℕ) (c : ℤ) : Bool :=
  if 0 ≤ c then d * 2 ^ c.toNat ≤ n else d ≤ n * 2 ^ (-c).toNat

/-- Round the fraction `a / d` (with `0 < d`) to the nearest integer,
ties to even — the rounding used by IEEE conversion and by Python float
formatting. -/
def roundHalfEven (a d : ℤ) : ℤ :=
  if 2 * (a % d) < d then a / d
  else if d < 2 * (a % d) then a / d + 1
  else if (a / d) % 2 = 0 then a / d else a / d + 1

/-- Correctly rounded conversion of the exact decimal value
`(-1)^sgn * num * 10^p10` to the nearest binary64 (ties to even), with
overflow to infinity and sign-preserving underflow to zero — the
semantics of CPython's `float(str)`.  The binade exponent `f` with
`2^f ≤ v < 2^(f+1)` is located through bit lengths; the significand is
the half-even rounding of `v / 2^e0` at the normal scale `e0 = f - 52`,
clamped to the subnormal scale `-1074`; a significand overflowing to
`2^53` moves up one binade; a result above the maximal finite exponent
`971` is infinite. -/
def toDouble (sgn : Bool) (num : ℕ) (p10 : ℤ) : PyFloat :=
  if num = 0 then .finite sgn 0 0
  else
    let n : ℕ := if 0 ≤ p10 then num * 10 ^ p10.toNat else num
    let d : ℕ := if 0 ≤ p10 then 1 else 10 ^ (-p10).toNat
    let b : ℤ := (bitLen n : ℤ) - (bitLen d : ℤ)
    let f : ℤ := if gePow2 n d b then b else b - 1
    let e0 : ℤ := max (f - 52) (-1074)
    let a : ℕ := if 0 ≤ e0 then n else n * 2 ^ (-e0).toNat
    let dd : ℕ := if 0 ≤ e0 then d * 2 ^ e0.toNat else d
    let m0 : ℕ := (roundHalfEven (a : ℤ) (dd : ℤ)).toNat
    if m0 = 0 then .finite sgn 0 0
    else
      let me : ℕ × ℤ := if m0 = 2 ^ 53 then (2 ^ 52, e0 + 1) else (m0, e0)
      if 971 < me.2 then .inf sgn else .finite sgn me.1 me.2

/-- Unsigned payload of `float(token)`: the case-insensitive literals
`inf`, `infinity` and `nan`, or a decimal literal converted to the
nearest double. -/
def parseMagnitude (sgn : Bool) (cs : List Char) : Option PyFloat :=
  let low := cs.map asciiLower
  if low = ['i', 'n', 'f'] ∨ low = ['i', 'n', 'f', 'i', 'n', 'i', 't', 'y'] then
    some (.inf sgn)
  else if low = ['n', 'a', 'n'] then
    some .nan
  else
    (parseDecimal cs).map (fun p => toDouble sgn p.1 p.2)

/-- Optional sign in front of the magnitude. -/
def parseSigned : List Char → Option PyFloat
  | '+' :: rest => parseMagnitude false rest
  | '-' :: rest => parseMagnitude true rest
  | cs => parseMagnitude false cs

/-- Python `float(token)` on a whitespace-free token: underscores are
validated and removed, then an optional sign precedes either an
`inf`/`infinity`/`nan` literal (any case) or a decimal literal, which is
correctly rounded to binary64. -/
def parseFloat (cs : List Char) : Option PyFloat :=
  if underscoreOKAux none cs then
    parseSigned (cs.filter (fun c => c ≠ '_'))
  else none

/-- The six digits after the decimal point of a `%.6f` rendering:
`m` printed modulo `10^6`, zero-padded to width 6, most significant
digit first. -/
def fracDigits6 (m : Nat) : String :=
  String.mk ((List.range 6).map (fun i => Nat.digitChar (m / 10 ^ (5 - i) % 10)))

/-- Python `f"{x:.6f}"`: `nan`, signed `inf`, or — for a finite double —
the sign bit's minus, the integer part, `.`, and exactly six fraction
digits, rounding the exact binary value `m * 2^e` half to even at the
sixth decimal place.  The scaled value `m * 2^e * 10^6` is the exact
fraction `(m * 10^6 * 2^max(e,0)) / 2^max(-e,0)`. -/
def formatFixed6 : PyFloat → String
  | .nan => "nan"
  | .inf sgn => (if sgn then "-" else "") ++ "inf"
  | .finite sgn m e =>
    (if sgn then "-" else "") ++
    toString
      ((roundHalfEven ((m : ℤ) * 1000000 * 2 ^ e.toNat) (2 ^ (-e).toNat)).natAbs /
        1000000) ++ "." ++
    fracDigits6
      ((roundHalfEven ((m : ℤ) * 1000000 * 2 ^ e.toNat) (2 ^ (-e).toNat)).natAbs %
        1000000)

/-- The string appended to `pts` for a parsed pair:
`f"    [{x:.6f}, {y:.6f}]"`. -/
def formatPoint (x y : PyFloat) : String :=
  "    [" ++ formatFixed6 x ++ ", " ++ formatFixed6 y ++ "]"

/-- The only error the parsing loop raises (uncaught `ValueError` from
`float`), plus the source-open failure used by the run model. -/
inductive ConvError where
  | sourceError
  | malformedNumber
  deriving DecidableEq, Repr

/-- One iteration of the loop body of `txt_to_scad`:
strip; skip blanks, `#`-comments and `...` lines; tokenize; skip lines
with fewer than two tokens; otherwise `float` the first two tokens
(failure propagates) and yield the formatted entry. -/
def processLine (line : List Char) : Except ConvError (Option String) :=
  if (pyStrip line).isEmpty || startsHash (pyStrip line) || containsDots (pyStrip line) then
    .ok none
  else
    match tokensOf (pyStrip line) with
    | p0 :: p1 :: _ =>
      match parseFloat p0, parseFloat p1 with
      | some x, some y => .ok (some (formatPoint x y))
      | _, _ => .error .malformedNumber
    | _ => .ok none

/-- The reading loop of `txt_to_scad`: fold `processLine` over the lines,
collecting formatted entries in order; a parse error aborts the run. -/
def parsePoints : List (List Char) → Except ConvError (List String)
  | [] => .ok []
  | l :: ls =>
    match processLine l with
    | .error e => .error e
    | .ok none => parsePoints ls
    | .ok (some p) => (parsePoints ls).map (fun ps => p :: ps)

/-- The writing phase of `txt_to_scad`: header comment, declaration head,
`",\n"`-join of the entries, closing `"\n];\n"`. -/
def renderOutput (infile varname : String) (pts : List String) : String :=
  "// Auto-generated from " ++ infile ++ "\n" ++
  varname ++ " = [\n" ++
  String.intercalate ",\n" pts ++
  "\n];\n"

/-- `txt_to_scad(infile, varname, outfile)` as a function from the source
file's contents to the destination file's contents (or the propagated
parse error). -/
def txt_to_scad (infile varname src : String) : Except ConvError String :=
  (parsePoints (linesOf src)).map (renderOutput infile varname)

/-- The file system visible to one run: the optional contents of the
source file and of the destination file. -/
structure FS where
  src : Option String
  dest : Option String
  deriving DecidableEq, Repr

/-- A whole call `txt_to_scad(infile, varname, outfile)` acting on the
file system.  Opening a missing source fails with everything untouched.
The source is fully read and parsed before `open(outfile, 'w')` runs, so
a parse error propagates with the destination never opened, created or
truncated; on success the destination is created or overwritten with the
rendered output. -/
def convertRun (fs : FS) (infile varname : String) : FS × Option ConvError :=
  match fs.src with
  | none => (fs, some .sourceError)
  | some content =>
    match parsePoints (linesOf content) with
    | .error e => (fs, some e)
    | .ok pts => ({ fs with dest := some (renderOutput infile varname pts) }, none)

/-- The literal usage message printed (to standard output, via `print`)
for a wrong argument count. -/
def usageMsg : String := "Usage: txt_to_scad.py input.txt varname output.scad"

/-- What the `__main__` block decides to do: either print the given
message to standard output and exit with the given status, attempting no
file I/O at all, or call `txt_to_scad` on the three positional
arguments. -/
inductive MainAction where
  | usage (printed : String) (exitCode : Nat)
  | convert (infile varname outfile : String)
  deriving DecidableEq, Repr

/-- The `__main__` block: `sys.argv` (program name followed by the
positional arguments) must have length exactly 4, i.e. exactly 3
positional arguments; otherwise print the usage message and
`sys.exit(1)`. -/
def mainModel (argv : List String) : MainAction :=
  match argv with
  | [_, a1, a2, a3] => .convert a1 a2 a3
  | _ => .usage usageMsg 1

/-- The entry an input line contributes to `pts`: `some` formatted pair
for a parsed coordinate line, `none` for a filtered or short line (and
for an aborting line, which contributes nothing to any output). -/
def keptEntry (line : List Char) : Option String :=
  match processLine line with
  | .ok o => o
  | .error _ => none

/-- The formatted entries retained from the source, in line order. -/
def keptEntries (src : String) : List String :=
  (linesOf src).filterMap keptEntry

/-! ### Helper lemmas -/

theorem parsePoints_skip {l : List Char} (ls : List (List Char))
    (h : processLine l = .ok none) : parsePoints (l :: ls) = parsePoints ls := by
  simp [parsePoints, h]

theorem parsePoints_abort {l : List Char} (ls : List (List Char)) {e : ConvError}
    (h : processLine l = .error e) : parsePoints (l :: ls) = .error e := by
  simp [parsePoints, h]

theorem processLine_error_eq {l : List Char} {e : ConvError}
    (h : processLine l = .error e) : e = .malformedNumber := by
  unfold processLine at h
  split at h
  · exact absurd h (by simp)
  · split at h
    · split at h
      · exact absurd h (by simp)
      · exact (Except.error.inj h).symm
    · exact absurd h (by simp)

theorem parsePoints_error_of_mem {line : List Char} {ls : List (List Char)}
    (hm : line ∈ ls) {e : ConvError} (h : processLine line = .error e) :
    parsePoints ls = .error .malformedNumber := by
  induction ls with
  | nil => cases hm
  | cons l ls ih =>
    rcases List.mem_cons.mp hm with rfl | hm'
    · rw [parsePoints_abort ls h, processLine_error_eq h]
    · cases hp : processLine l with
      | error e' =>
        rw [parsePoints_abort ls hp, processLine_error_eq hp]
      | ok o =>
        cases o with
        | none => rw [parsePoints_skip ls hp]; exact ih hm'
        | some p => simp [parsePoints, hp, Except.map, ih hm']

theorem parsePoints_ok_eq {ls : List (List Char)} :
    ∀ {pts : List String}, parsePoints ls = .ok pts → pts = ls.filterMap keptEntry := by
  induction ls with
  | nil =>
    intro pts h
    have h' : (Except.ok [] : Except ConvError (List String)) = .ok pts := h
    simp [(Except.ok.inj h').symm]
  | cons l ls ih =>
    intro pts h
    cases hp : processLine l with
    | error e => rw [parsePoints_abort ls hp] at h; exact absurd h (by simp)
    | ok o =>
      cases o with
      | none =>
        rw [parsePoints_skip ls hp] at h
        simpa [List.filterMap_cons, keptEntry, hp] using ih h
      | some p =>
        simp only [parsePoints, hp] at h
        cases hpp : parsePoints ls with
        | error e => rw [hpp] at h; exact absurd h (by simp [Except.map])
        | ok pts' =>
          rw [hpp] at h
          simp only [Except.map] at h
          simp [List.filterMap_cons, keptEntry, hp, (Except.ok.inj h).symm, ih hpp]

theorem processLine_ok_some {line : List Char} {q : String}
    (h : processLine line = .ok (some q)) : ∃ x y, q = formatPoint x y := by
  unfold processLine at h
  split at h
  · exact absurd h (by simp)
  · split at h
    · split at h
      · exact ⟨_, _, (Option.some.inj (Except.ok.inj h)).symm⟩
      · exact absurd h (by simp)
    · exact absurd h (by simp)

theorem digitChar_isDigit {d : Nat} (hd : d < 10) : (Nat.digitChar d).isDigit = true := by
  interval_cases d <;> decide

theorem fracDigits6_length (m : Nat) : (fracDigits6 m).length = 6 := by
  simp [fracDigits6, String.length]

theorem fracDigits6_all_digits (m : Nat) :
    (fracDigits6 m).toList.all Char.isDigit = true := by
  simp only [fracDigits6, String.toList, List.all_eq_true]
  intro c hc
  rcases List.mem_map.mp hc with ⟨i, _, rfl⟩
  exact digitChar_isDigit (Nat.mod_lt _ (by norm_num))

theorem roundHalfEven_spec (a d : ℤ) (hd : 0 < d) :
    (2 * a - 2 * roundHalfEven a d * d).natAbs ≤ d.natAbs ∧
    ((2 * a - 2 * roundHalfEven a d * d).natAbs = d.natAbs →
      roundHalfEven a d % 2 = 0) := by
  have h1 : d * (a / d) + a % d = a := Int.ediv_add_emod a d
  have h2 : 0 ≤ a % d := Int.emod_nonneg a (ne_of_gt hd)
  have h3 : a % d < d := Int.emod_lt_of_pos a hd
  have key : 2 * a - 2 * (a / d) * d = 2 * (a % d) := by linear_combination -2 * h1
  have key1 : 2 * a - 2 * (a / d + 1) * d = 2 * (a % d) - 2 * d := by
    linear_combination -2 * h1
  unfold roundHalfEven
  split
  case isTrue hlt => rw [key]; omega
  case isFalse hge =>
    split
    case isTrue hgt => rw [key1]; omega
    case isFalse hle =>
      split
      case isTrue heven => rw [key]; omega
      case isFalse hodd => rw [key1]; omega

/-! ### Claims -/

/-- C1: a successful run's destination contents are exactly: line 1 the
`// Auto-generated from {sourcePath}` comment, line 2 `{variableName} = [`,
then the retained entries one per line in the order of their originating
input lines, joined by `",\n"` (each pair-line except the last followed by
a comma and a line break, the last by neither), then the final `];` line
with its line break; and every retained entry is a 4-space-indented
`[x, y]` pair. -/
theorem c1_output_format (infile varname src out : String)
    (h : txt_to_scad infile varname src = .ok out) :
    out = "// Auto-generated from " ++ infile ++ "\n" ++ varname ++ " = [\n" ++
        String.intercalate ",\n" (keptEntries src) ++ "\n];\n" ∧
    ∀ p ∈ keptEntries src, ∃ x y : PyFloat,
      p = "    [" ++ formatFixed6 x ++ ", " ++ formatFixed6 y ++ "]" := by
  constructor
  · unfold txt_to_scad at h
    cases hpp : parsePoints (linesOf src) with
    | error e => rw [hpp] at h; exact absurd h (by simp [Except.map])
    | ok pts =>
      rw [hpp] at h
      simp only [Except.map] at h
      rw [← Except.ok.inj h, parsePoints_ok_eq hpp]
      rfl
  · intro p hp
    rcases List.mem_filterMap.mp hp with ⟨line, _, hk⟩
    cases hpl : processLine line with
    | error e => simp [keptEntry, hpl] at hk
    | ok o =>
      cases o with
      | none => simp [keptEntry, hpl] at hk
      | some q =>
        simp only [keptEntry, hpl, Option.some.injEq] at hk
        obtain ⟨x, y, rfl⟩ := processLine_ok_some hpl
        exact ⟨x, y, hk.symm⟩

/-- C1 witness: the spec's worked example evaluates to the exact expected
file contents, and the claim theorem applies to it. -/
theorem c1_witness :
    "// Auto-generated from input.txt\npts = [\n    [1.000000, 2.000000],\n    [3.000000, 4.000000],\n    [5.500000, 6.250000]\n];\n" =
      "// Auto-generated from " ++ "input.txt" ++ "\n" ++ "pts" ++ " = [\n" ++
      String.intercalate ",\n"
        (keptEntries "# header\n1, 2\n3 4\n...\n5.5 6.25 extra\n") ++
      "\n];\n" ∧
    ∀ p ∈ keptEntries "# header\n1, 2\n3 4\n...\n5.5 6.25 extra\n",
      ∃ x y : PyFloat, p = "    [" ++ formatFixed6 x ++ ", " ++ formatFixed6 y ++ "]" :=
  c1_output_format "input.txt" "pts" _ _ (by rfl)

/-- C2: any line that strips to empty, or whose stripped form starts with
`#`, or contains the substring `...`, is skipped: it contributes no
coordinate and raises no error, whatever else it contains. -/
theorem c2_line_filtering (line : List Char) (ls : List (List Char))
    (h : pyStrip line = [] ∨ startsHash (pyStrip line) = true ∨
        containsDots (pyStrip line) = true) :
    processLine line = .ok none ∧ parsePoints (line :: ls) = parsePoints ls := by
  have hc : ((pyStrip line).isEmpty || startsHash (pyStrip line) ||
      containsDots (pyStrip line)) = true := by
    rcases h with h | h | h <;> simp [h]
  have hpl : processLine line = .ok none := by
    unfold processLine
    rw [if_pos hc]
  exact ⟨hpl, parsePoints_skip ls hpl⟩

/-- C2 witness: a comment line carrying numeric-looking content is
skipped and contributes nothing. -/
theorem c2_witness :
    processLine "# comment 1 2".toList = .ok none ∧
    parsePoints ("# comment 1 2".toList :: ["1 2".toList]) =
      parsePoints ["1 2".toList] :=
  c2_line_filtering _ _ (Or.inr (Or.inl (by rfl)))

/-- C3: on a kept line with at least two tokens after comma-to-space
normalization, the result is determined by the first two tokens alone:
both parse as floats and the emitted point is built from them (any later
tokens — numeric or not — are ignored), or either fails to parse and the
line aborts the run; later numeric tokens are never substituted. -/
theorem c3_first_two_tokens (line t0 t1 : List Char) (rest : List (List Char))
    (hf : ((pyStrip line).isEmpty || startsHash (pyStrip line) ||
        containsDots (pyStrip line)) = false)
    (ht : tokensOf (pyStrip line) = t0 :: t1 :: rest) :
    processLine line =
      match parseFloat t0, parseFloat t1 with
      | some x, some y => .ok (some (formatPoint x y))
      | _, _ => .error .malformedNumber := by
  unfold processLine
  rw [if_neg (by simp [hf]), ht]

/-- C3 witness: on `1, 2 junk` the point is built from the first two
tokens — the doubles `1.0` and `2.0` — and the non-numeric third token is
ignored. -/
theorem c3_witness :
    processLine "1, 2 junk".toList =
      .ok (some (formatPoint (.finite false (2 ^ 52) (-52))
        (.finite false (2 ^ 52) (-51)))) :=
  c3_first_two_tokens _ "1".toList "2".toList ["junk".toList] (by rfl) (by rfl)

/-- C4: a run whose source contains a kept line whose first two tokens do
not both parse as floats aborts with the propagated numeric-parse error:
the run result carries the uncaught error and the file system — in
particular the destination — is left exactly as it was, because the
destination is never opened. -/
theorem c4_malformed_aborts (fs : FS) (infile varname content : String)
    (line : List Char) (e : ConvError)
    (hsrc : fs.src = some content) (hmem : line ∈ linesOf content)
    (hbad : processLine line = .error e) :
    convertRun fs infile varname = (fs, some ConvError.malformedNumber) := by
  have hpp := parsePoints_error_of_mem hmem hbad
  simp [convertRun, hsrc, hpp]

/-- C4 witness: source `abc 2.0` aborts the run with the parse error and
an untouched file system. -/
theorem c4_witness :
    convertRun ⟨some "abc 2.0\n", some "old"⟩ "in.txt" "pts" =
      (⟨some "abc 2.0\n", some "old"⟩, some ConvError.malformedNumber) :=
  c4_malformed_aborts _ "in.txt" "pts" "abc 2.0\n" "abc 2.0".toList
    ConvError.malformedNumber rfl (by decide) (by rfl)

/-- C5: a kept line with fewer than two tokens after comma-to-space
normalization is skipped silently: no coordinate, no error, and the
conversion continues with the remaining lines. -/
theorem c5_few_tokens_skipped (line : List Char) (ls : List (List Char))
    (hf : ((pyStrip line).isEmpty || startsHash (pyStrip line) ||
        containsDots (pyStrip line)) = false)
    (ht : (tokensOf (pyStrip line)).length < 2) :
    processLine line = .ok none ∧ parsePoints (line :: ls) = parsePoints ls := by
  have hpl : processLine line = .ok none := by
    unfold processLine
    rw [if_neg (by simp [hf])]
    cases htk : tokensOf (pyStrip line) with
    | nil => rfl
    | cons t0 tl =>
      cases tl with
      | nil => rfl
      | cons t1 rest =>
        rw [htk] at ht
        simp only [List.length_cons] at ht
        omega
  exact ⟨hpl, parsePoints_skip ls hpl⟩

/-- C5 witness: the one-token line `5,` is skipped and the conversion
continues. -/
theorem c5_witness :
    processLine "5,".toList = .ok none ∧
    parsePoints ("5,".toList :: ["1 2".toList]) = parsePoints ["1 2".toList] :=
  c5_few_tokens_skipped _ _ (by rfl) (by decide)

/-- C6 counterexample: the program accepts `inf` as a coordinate token —
Python `float('inf')` succeeds — and `%.6f` prints it as `inf`, which
contains no decimal point at all, so the emitted component does not have
six digits after a decimal point; the line `inf 1` is converted, not
rejected. -/
theorem c6_counterexample :
    processLine "inf 1".toList = .ok (some "    [inf, 1.000000]") ∧
    formatFixed6 (.inf false) = "inf" ∧
    ('.' ∉ "inf".toList) := by
  refine ⟨by rfl, by rfl, by decide⟩

/-- C6 (amended): a coordinate component whose parsed double is finite
prints as an integer part, a decimal point, and exactly six digits; the
six digits encode the integer nearest to the double's exact value
`m * 2^e` scaled by `10^6`, ties broken to even — standard rounding;
components whose parsed double is non-finite print as `inf`, `-inf` or
`nan`, with no decimal digits; and the token `1` parses to the double of
value one and prints as `1.000000`. -/
theorem c6_finite_six_digits :
    (∀ (sgn : Bool) (m : ℕ) (e : ℤ),
      ∃ intPart frac : String,
        formatFixed6 (.finite sgn m e) = intPart ++ "." ++ frac ∧
        frac.length = 6 ∧
        frac.toList.all Char.isDigit = true ∧
        frac = fracDigits6
          ((roundHalfEven ((m : ℤ) * 1000000 * 2 ^ e.toNat)
            (2 ^ (-e).toNat)).natAbs % 1000000) ∧
        (2 * ((m : ℤ) * 1000000 * 2 ^ e.toNat) -
            2 * roundHalfEven ((m : ℤ) * 1000000 * 2 ^ e.toNat) (2 ^ (-e).toNat) *
              2 ^ (-e).toNat).natAbs ≤ ((2 : ℤ) ^ (-e).toNat).natAbs ∧
        ((2 * ((m : ℤ) * 1000000 * 2 ^ e.toNat) -
            2 * roundHalfEven ((m : ℤ) * 1000000 * 2 ^ e.toNat) (2 ^ (-e).toNat) *
              2 ^ (-e).toNat).natAbs = ((2 : ℤ) ^ (-e).toNat).natAbs →
          roundHalfEven ((m : ℤ) * 1000000 * 2 ^ e.toNat) (2 ^ (-e).toNat) % 2 = 0)) ∧
    formatFixed6 (.inf false) = "inf" ∧
    formatFixed6 (.inf true) = "-inf" ∧
    formatFixed6 .nan = "nan" ∧
    parseFloat ['1'] = some (.finite false (2 ^ 52) (-52)) ∧
    formatFixed6 (.finite false (2 ^ 52) (-52)) = "1.000000" := by
  refine ⟨fun sgn m e => ?_, by rfl, by rfl, by rfl, by decide, by decide⟩
  exact ⟨(if sgn then "-" else "") ++
      toString
        ((roundHalfEven ((m : ℤ) * 1000000 * 2 ^ e.toNat)
          (2 ^ (-e).toNat)).natAbs / 1000000),
    fracDigits6
      ((roundHalfEven ((m : ℤ) * 1000000 * 2 ^ e.toNat)
        (2 ^ (-e).toNat)).natAbs % 1000000),
    rfl, fracDigits6_length _, fracDigits6_all_digits _, rfl,
    roundHalfEven_spec _ _ (by positivity)⟩

/-- C6 witness: the amended theorem applied to the concrete finite double
`-5 * 2^-3 = -0.625`, which prints as `-0.625000`. -/
theorem c6_witness :
    ∃ intPart frac : String,
      formatFixed6 (.finite true 5 (-3)) = intPart ++ "." ++ frac ∧
      frac.length = 6 ∧
      frac.toList.all Char.isDigit = true ∧
      frac = fracDigits6
        ((roundHalfEven ((5 : ℤ) * 1000000 * 2 ^ (-3 : ℤ).toNat)
          (2 ^ (-(-3) : ℤ).toNat)).natAbs % 1000000) ∧
      (2 * ((5 : ℤ) * 1000000 * 2 ^ (-3 : ℤ).toNat) -
          2 * roundHalfEven ((5 : ℤ) * 1000000 * 2 ^ (-3 : ℤ).toNat)
            (2 ^ (-(-3) : ℤ).toNat) * 2 ^ (-(-3) : ℤ).toNat).natAbs ≤
        ((2 : ℤ) ^ (-(-3) : ℤ).toNat).natAbs ∧
      ((2 * ((5 : ℤ) * 1000000 * 2 ^ (-3 : ℤ).toNat) -
          2 * roundHalfEven ((5 : ℤ) * 1000000 * 2 ^ (-3 : ℤ).toNat)
            (2 ^ (-(-3) : ℤ).toNat) * 2 ^ (-(-3) : ℤ).toNat).natAbs =
          ((2 : ℤ) ^ (-(-3) : ℤ).toNat).natAbs →
        roundHalfEven ((5 : ℤ) * 1000000 * 2 ^ (-3 : ℤ).toNat)
          (2 ^ (-(-3) : ℤ).toNat) % 2 = 0) :=
  c6_finite_six_digits.1 true 5 (-3)

/-- C7: when no line survives filtering and tokenization, the conversion
succeeds with an empty array body: header line, `{varname} = [`, an empty
join, and `\n];\n`. -/
theorem c7_empty_body (infile varname src : String)
    (h : parsePoints (linesOf src) = .ok []) :
    txt_to_scad infile varname src =
      .ok ("// Auto-generated from " ++ infile ++ "\n" ++ varname ++ " = [\n\n];\n") := by
  unfold txt_to_scad
  rw [h]
  simp only [Except.map]
  unfold renderOutput
  rw [show String.intercalate ",\n" ([] : List String) = "" from rfl,
    String.append_empty, String.append_assoc]
  rfl

/-- C7 witness: a source whose every line is filtered or short produces
the empty-bodied declaration. -/
theorem c7_witness :
    txt_to_scad "in.txt" "pts" "# c\n...\n  \n5,\n" =
      .ok ("// Auto-generated from " ++ "in.txt" ++ "\n" ++ "pts" ++ " = [\n\n];\n") :=
  c7_empty_body "in.txt" "pts" _ (by rfl)

/-- C8: a command line with other than exactly 3 positional arguments
(`sys.argv` length other than 4) prints the usage message to standard
output and exits with the non-zero status 1, attempting no file I/O;
with exactly 3 positional arguments the conversion is invoked on them. -/
theorem c8_arg_count :
    (∀ argv : List String, argv.length ≠ 4 →
      mainModel argv = .usage usageMsg 1 ∧ 1 ≠ 0) ∧
    (∀ a0 a1 a2 a3 : String, mainModel [a0, a1, a2, a3] = .convert a1 a2 a3) := by
  constructor
  · intro argv h
    refine ⟨?_, by decide⟩
    rcases argv with _ | ⟨a, _ | ⟨b, _ | ⟨c, _ | ⟨d, _ | ⟨e, tl⟩⟩⟩⟩⟩
    · rfl
    · rfl
    · rfl
    · rfl
    · exact absurd rfl h
    · rfl
  · intro a0 a1 a2 a3
    rfl

/-- C8 witness: one argument yields the usage action with exit status 1;
three positional arguments yield the conversion action. -/
theorem c8_witness :
    mainModel ["txt_to_scad.py"] = .usage usageMsg 1 ∧
    mainModel ["txt_to_scad.py", "input.txt", "pts", "out.scad"] =
      .convert "input.txt" "pts" "out.scad" :=
  ⟨(c8_arg_count.1 ["txt_to_scad.py"] (by decide)).1,
   c8_arg_count.2 "txt_to_scad.py" "input.txt" "pts" "out.scad"⟩

/-- C9: the conversion output is a deterministic function of the source
contents, the source path string, and the variable name: two runs on
equal inputs produce byte-identical results. -/
theorem c9_deterministic (infile1 infile2 varname1 varname2 src1 src2 : String)
    (hi : infile1 = infile2) (hv : varname1 = varname2) (hs : src1 = src2) :
    txt_to_scad infile1 varname1 src1 = txt_to_scad infile2 varname2 src2 := by
  rw [hi, hv, hs]

/-- C9 witness: two runs on the same concrete input agree. -/
theorem c9_witness :
    txt_to_scad "input.txt" "pts" "1 2\n" = txt_to_scad "input.txt" "pts" "1 2\n" :=
  c9_deterministic _ _ _ _ _ _ rfl rfl rfl

/-- C10: whenever a run fails (missing source or numeric-parse error),
the whole file system — in particular any pre-existing destination file —
is left unchanged: the destination is never opened, created or
truncated on the error path. -/
theorem c10_error_leaves_dest (fs : FS) (infile varname : String) (e : ConvError)
    (h : (convertRun fs infile varname).2 = some e) :
    (convertRun fs infile varname).1 = fs := by
  cases hsrc : fs.src with
  | none => simp [convertRun, hsrc]
  | some content =>
    cases hpp : parsePoints (linesOf content) with
    | error e' => simp [convertRun, hsrc, hpp]
    | ok pts => simp [convertRun, hsrc, hpp] at h

/-- C10 witness: a parse error leaves the pre-existing destination
contents `old` in place. -/
theorem c10_witness :
    (convertRun ⟨some "abc 2.0\n", some "old"⟩ "in.txt" "pts").1 =
      ⟨some "abc 2.0\n", some "old"⟩ :=
  c10_error_leaves_dest _ "in.txt" "pts" ConvError.malformedNumber (by rfl)

end TxtToScad
